import Mathlib

/-!
Verification development for the `subtitle-extractor` plugin
(`src/index.ts` of the repository).

The TypeScript source is shallowly embedded:

* files and buffers are `List Nat` of byte values;
* JavaScript's 32-bit bitwise arithmetic in the base32 loop is modelled on
  `Nat` with an explicit `% 4294967296` (JS coerces the accumulator to a
  32-bit integer; sign extension is unobservable because the loop only ever
  reads bits below position 17 of the accumulator);
* `createHash('sha256')` from Node's `crypto` is replaced by a concrete,
  executable SHA-256 implementation (`sha256` below), used identically on
  the code side and the spec side;
* filesystem and child-process effects of the orchestrator are modelled by
  an explicit environment (`Env`) and the run result records every
  externally visible effect (tool invocations, unlinks, metadata writes).
-/

/-! ### JavaScript truthiness for optional string fields

A `Record<string, string>` lookup yields `undefined` (here `none`) or a
string; JS `if (s)` treats the empty string as false. -/

def jsTruthy : Option String → Option String
  | some s => if s = "" then none else some s
  | none => none

/-- JS `a || b` for a possibly-missing string `a` with default `b`. -/
def jsOrDefault (a : Option String) (b : String) : String :=
  match jsTruthy a with
  | some s => s
  | none => b

/-! ### SHA-256 (executable model of Node's `createHash('sha256')`)

Words are `Nat` kept below `2 ^ 32` by explicit reduction. -/

def UINT32_LIMIT : Nat := 4294967296

/-- Rotate the low 32 bits of `x` rightwards by `n` positions. -/
def rotr32 (x n : Nat) : Nat :=
  ((x >>> n) ||| (x <<< (32 - n))) % UINT32_LIMIT

/-- Round constants of SHA-256 (fractional parts of the cube roots of the
first 64 primes), written in decimal. -/
def shaK : List Nat :=
  [1116352408, 1899447441, 3049323471, 3921009573, 961987163, 1508970993,
   2453635748, 2870763221, 3624381080, 310598401, 607225278, 1426881987,
   1925078388, 2162078206, 2614888103, 3248222580, 3835390401, 4022224774,
   264347078, 604807628, 770255983, 1249150122, 1555081692, 1996064986,
   2554220882, 2821834349, 2952996808, 3210313671, 3336571891, 3584528711,
   113926993, 338241895, 666307205, 773529912, 1294757372, 1396182291,
   1695183700, 1986661051, 2177026350, 2456956037, 2730485921, 2820302411,
   3259730800, 3345764771, 3516065817, 3600352804, 4094571909, 275423344,
   430227734, 506948616, 659060556, 883997877, 958139571, 1322822218,
   1537002063, 1747873779, 1955562222, 2024104815, 2227730452, 2361852424,
   2428436474, 2756734187, 3204031479, 3329325298]

/-- Starting hash state of SHA-256, written in decimal. -/
def shaH0 : List Nat :=
  [1779033703, 3144134277, 1013904242, 2773480762, 1359893119, 2600822924,
   528734635, 1541459225]

/-- Big-endian 8-byte encoding of a natural number
(model of `Buffer.writeBigUInt64BE`; exact for values below `2 ^ 64`). -/
def writeBigUInt64BE (n : Nat) : List Nat :=
  [(n >>> 56) &&& 255, (n >>> 48) &&& 255, (n >>> 40) &&& 255, (n >>> 32) &&& 255,
   (n >>> 24) &&& 255, (n >>> 16) &&& 255, (n >>> 8) &&& 255, n &&& 255]

/-- SHA-256 padding: append `0x80`, zero bytes, and the 64-bit big-endian
bit length, reaching a multiple of 64 bytes. -/
def shaPad (msg : List Nat) : List Nat :=
  let len := msg.length
  let zeros := (64 - (len + 9) % 64) % 64
  msg ++ [0x80] ++ List.replicate zeros 0 ++ writeBigUInt64BE (8 * len)

/-- Group bytes into big-endian 32-bit words. -/
def bytesToWordsBE : List Nat → List Nat
  | b0 :: b1 :: b2 :: b3 :: rest =>
    ((b0 <<< 24) + (b1 <<< 16) + (b2 <<< 8) + b3) :: bytesToWordsBE rest
  | _ => []

/-- Extend the 16-word message schedule by `n` further words. -/
def shaExtendLoop (w : List Nat) : Nat → List Nat
  | 0 => w
  | n + 1 =>
    let i := w.length
    let w15 := w.getD (i - 15) 0
    let w2 := w.getD (i - 2) 0
    let s0 := (rotr32 w15 7) ^^^ (rotr32 w15 18) ^^^ (w15 >>> 3)
    let s1 := (rotr32 w2 17) ^^^ (rotr32 w2 19) ^^^ (w2 >>> 10)
    let wi := (w.getD (i - 16) 0 + s0 + w.getD (i - 7) 0 + s1) % UINT32_LIMIT
    shaExtendLoop (w ++ [wi]) n

/-- One pass of the 64 SHA-256 compression rounds; `regs` holds
`[a, b, c, d, e, f, g, h]`. -/
def shaRounds : List (Nat × Nat) → List Nat → List Nat
  | [], regs => regs
  | (ki, wi) :: rest, regs =>
    let a := regs.getD 0 0
    let b := regs.getD 1 0
    let c := regs.getD 2 0
    let d := regs.getD 3 0
    let e := regs.getD 4 0
    let f := regs.getD 5 0
    let g := regs.getD 6 0
    let h := regs.getD 7 0
    let S1 := (rotr32 e 6) ^^^ (rotr32 e 11) ^^^ (rotr32 e 25)
    let ch := (e &&& f) ^^^ ((e ^^^ 0xffffffff) &&& g)
    let t1 := (h + S1 + ch + ki + wi) % UINT32_LIMIT
    let S0 := (rotr32 a 2) ^^^ (rotr32 a 13) ^^^ (rotr32 a 22)
    let maj := (a &&& b) ^^^ (a &&& c) ^^^ (b &&& c)
    let t2 := (S0 + maj) % UINT32_LIMIT
    shaRounds rest
      [(t1 + t2) % UINT32_LIMIT, a, b, c, (d + t1) % UINT32_LIMIT, e, f, g]

/-- Compress one 64-byte block into the running hash state. -/
def shaProcessBlock (h : List Nat) (block : List Nat) : List Nat :=
  let w := shaExtendLoop (bytesToWordsBE block) 48
  let r := shaRounds (shaK.zip w) h
  (h.zip r).map (fun p => (p.1 + p.2) % UINT32_LIMIT)

/-- Fold the compression over consecutive 64-byte blocks
(`fuel` bounds the recursion; any `fuel ≥` the block count is exact). -/
def shaBlocks (h : List Nat) : Nat → List Nat → List Nat
  | 0, _ => h
  | _, [] => h
  | fuel + 1, bytes =>
    shaBlocks (shaProcessBlock h (bytes.take 64)) fuel (bytes.drop 64)

/-- Serialize one 32-bit word as four big-endian bytes. -/
def wordToBytesBE (w : Nat) : List Nat :=
  [(w >>> 24) &&& 255, (w >>> 16) &&& 255, (w >>> 8) &&& 255, w &&& 255]

/-- SHA-256 digest of a byte sequence, as 32 bytes. -/
def sha256 (msg : List Nat) : List Nat :=
  let padded := shaPad msg
  (shaBlocks shaH0 padded.length padded).flatMap wordToBytesBE

/-! ### Content identifier (`computeMidHash256Sync`, src/index.ts lines 189-241)

The base32 loop of the source is embedded as `b32Drain` (the inner
`while (bits >= 5)`) and `b32Loop` (the `for (const byte of cidBytes)`
together with the final partial-symbol step), emitting alphabet indices;
the string is assembled from the indices afterwards. -/

def base32Chars : String := "abcdefghijklmnopqrstuvwxyz234567"

def base32CharAt (i : Nat) : Char :=
  base32Chars.toList.getD i 'a'

/-- Inner `while (bits >= 5) { bits -= 5; cid += chars[(value >> bits) & 0x1f] }`:
returns the emitted alphabet indices and the final `bits`. -/
def b32Drain (value : Nat) : Nat → List Nat × Nat
  | 0 => ([], 0)
  | 1 => ([], 1)
  | 2 => ([], 2)
  | 3 => ([], 3)
  | 4 => ([], 4)
  | b + 5 =>
    let r := b32Drain value b
    (((value >>> b) &&& 0x1f) :: r.1, r.2)

/-- The byte loop of the encoder: shift each byte into `value` (JS 32-bit
truncation made explicit), drain full symbols, and emit the final
left-shifted partial symbol `(value << (5 - bits)) & 0x1f` if bits remain. -/
def b32Loop : List Nat → Nat → Nat → List Nat
  | [], value, bits =>
    if 0 < bits then [(value <<< (5 - bits)) &&& 0x1f] else []
  | byte :: rest, value, bits =>
    let value' := ((value <<< 8) ||| byte) % UINT32_LIMIT
    let d := b32Drain value' (bits + 8)
    d.1 ++ b32Loop rest value' d.2

/-- The multibase prefix `'b'` followed by the encoded symbols. -/
def base32Encode (bytes : List Nat) : String :=
  "b" ++ String.mk ((b32Loop bytes 0 0).map base32CharAt)

def SAMPLE_SIZE : Nat := 1024 * 1024

def MIDHASH_VARINT : List Nat := [0x80, 0x20]

/-- Embedding of `computeMidHash256Sync` (src/index.ts lines 189-241).
The file is its byte list; `statSync` is the list length, and the
`readSync` calls are the corresponding `take`/`drop` windows. -/
def computeMidHash256Sync (file : List Nat) : String :=
  let fileSize := file.length
  let sizeBuffer := writeBigUInt64BE fileSize
  let sampleData :=
    if fileSize ≤ SAMPLE_SIZE then
      file
    else
      let middleOffset := (fileSize - SAMPLE_SIZE) / 2
      (file.drop middleOffset).take SAMPLE_SIZE
  let hashInput := sizeBuffer ++ sampleData
  let hashBuffer := sha256 hashInput
  let cidBytes := [0x01] ++ MIDHASH_VARINT ++ MIDHASH_VARINT ++ [0x20] ++ hashBuffer
  base32Encode cidBytes

/-! ### Spec-side formulation of the content identifier

These definitions transcribe the specification's words for §4.1/§6 (claim
C1): sample selection, digest input, the fixed 38-byte structure, and
"base32, 5 bits at a time, most-significant-bit first, a final trailing
group of fewer than 5 bits left-shifted to fill one last symbol". -/

/-- The `k` low bits of `v`, most significant first, as a list of bits. -/
def lowBitsList (v : Nat) : Nat → List Nat
  | 0 => []
  | k + 1 => (v / 2 ^ k % 2) :: lowBitsList v k

/-- The 8 bits of a byte, most significant first. -/
def byteBitsMSB (b : Nat) : List Nat :=
  lowBitsList b 8

/-- Cut a bit stream into 5-bit symbols, most-significant-bit first; a final
group of fewer than 5 bits is left-shifted to fill one last symbol. -/
def chunk5 : List Nat → List Nat
  | b0 :: b1 :: b2 :: b3 :: b4 :: rest =>
    (16 * b0 + 8 * b1 + 4 * b2 + 2 * b3 + b4) :: chunk5 rest
  | [] => []
  | [b0] => [b0 <<< 4]
  | [b0, b1] => [(2 * b0 + b1) <<< 3]
  | [b0, b1, b2] => [(4 * b0 + 2 * b1 + b2) <<< 2]
  | [b0, b1, b2, b3] => [(8 * b0 + 4 * b1 + 2 * b2 + b3) <<< 1]

/-- Spec-side base32: 5 bits at a time over the byte stream's bits. -/
def base32SpecSymbols (bytes : List Nat) : List Nat :=
  chunk5 (bytes.flatMap byteBitsMSB)

/-- The 8-byte big-endian encoding of the file length, as the spec words it. -/
def beBytes8Spec (n : Nat) : List Nat :=
  [n / 2 ^ 56 % 256, n / 2 ^ 48 % 256, n / 2 ^ 40 % 256, n / 2 ^ 32 % 256,
   n / 2 ^ 24 % 256, n / 2 ^ 16 % 256, n / 2 ^ 8 % 256, n % 256]

/-- Spec wording of the sample: the whole file when its length is at most
1,048,576 bytes, otherwise exactly 1,048,576 bytes from offset
`(L - 1048576) / 2` (floor). -/
def specSample (file : List Nat) : List Nat :=
  if file.length ≤ 1048576 then file
  else (file.drop ((file.length - 1048576) / 2)).take 1048576

/-- Spec wording of the digest input: big-endian length, then the sample. -/
def specDigestInput (file : List Nat) : List Nat :=
  beBytes8Spec file.length ++ specSample file

/-- The fixed 38-byte structure `[0x01][0x80 0x20][0x80 0x20][0x20]` + digest. -/
def specCidBytes (file : List Nat) : List Nat :=
  [0x01, 0x80, 0x20, 0x80, 0x20, 0x20] ++ sha256 (specDigestInput file)

/-- The spec's content identifier: `'b'` + base32 of the 38-byte structure. -/
def computeContentIdentifierSpec (file : List Nat) : String :=
  "b" ++ String.mk ((base32SpecSymbols (specCidBytes file)).map base32CharAt)

/-! ### Arithmetic bridge lemmas for the bitwise operations -/

theorem and_31_eq_mod (x : Nat) : x &&& 0x1f = x % 32 := by
  have h := Nat.and_pow_two_sub_one_eq_mod x 5
  norm_num at h
  exact h

theorem and_255_eq_mod (x : Nat) : x &&& 255 = x % 256 := by
  have h := Nat.and_pow_two_sub_one_eq_mod x 8
  norm_num at h
  exact h

theorem shiftLeft_or_byte (value byte : Nat) (hb : byte < 256) :
    (value <<< 8) ||| byte = value * 256 + byte := by
  have h := Nat.mul_add_lt_is_or (i := 8) (b := byte) (by simpa using hb) value
  rw [Nat.shiftLeft_eq]
  norm_num at h ⊢
  rw [Nat.mul_comm value 256] at *
  exact h.symm

/-- Values agreeing on their `k` low bits have the same bit list. -/
theorem lowBitsList_congr {x y : Nat} (k : Nat) (h : x % 2 ^ k = y % 2 ^ k) :
    lowBitsList x k = lowBitsList y k := by
  induction k with
  | zero => rfl
  | succ k ih =>
    have hdvd : (2 : Nat) ^ k ∣ 2 ^ (k + 1) := pow_dvd_pow 2 (Nat.le_succ k)
    have hk : x % 2 ^ k = y % 2 ^ k := by
      rw [← Nat.mod_mod_of_dvd x hdvd, ← Nat.mod_mod_of_dvd y hdvd, h]
    have hpos : 0 < 2 ^ k := Nat.pos_pow_of_pos k (by norm_num)
    have hdiv : ∀ z : Nat, z % 2 ^ (k + 1) / 2 ^ k = z / 2 ^ k % 2 := by
      intro z
      rw [Nat.pow_succ, Nat.mod_mul, Nat.add_mul_div_left _ _ hpos,
        Nat.div_eq_of_lt (Nat.mod_lt _ hpos), Nat.zero_add]
    have hhead : x / 2 ^ k % 2 = y / 2 ^ k % 2 := by
      rw [← hdiv x, ← hdiv y, h]
    simp [lowBitsList, hhead, ih hk]

/-- Splitting a bit list at a byte boundary: the low `n` bits of `b` follow
the low `m` bits of `a` in the bit list of `a * 2 ^ n + b`. -/
theorem lowBitsList_mul_add (b n : Nat) (hb : b < 2 ^ n) :
    ∀ m a, lowBitsList (a * 2 ^ n + b) (m + n) = lowBitsList a m ++ lowBitsList b n := by
  intro m
  induction m with
  | zero =>
    intro a
    rw [Nat.zero_add]
    simp only [lowBitsList, List.nil_append]
    exact lowBitsList_congr n (by rw [Nat.mul_comm, Nat.mul_add_mod])
  | succ m ih =>
    intro a
    rw [Nat.succ_add]
    have hdivn : (a * 2 ^ n + b) / 2 ^ n = a := by
      rw [Nat.mul_comm a, Nat.add_comm, Nat.add_mul_div_left _ _ (Nat.pos_pow_of_pos n (by norm_num)),
        Nat.div_eq_of_lt hb, Nat.zero_add]
    have hdiv : (a * 2 ^ n + b) / 2 ^ (m + n) = a / 2 ^ m := by
      rw [Nat.pow_add, Nat.mul_comm (2 ^ m), ← Nat.div_div_eq_div_mul, hdivn]
    simp only [lowBitsList, hdiv, ih a, List.cons_append]

theorem lowBitsList_five (x : Nat) :
    lowBitsList x 5 = [x / 16 % 2, x / 8 % 2, x / 4 % 2, x / 2 % 2, x % 2] := by
  norm_num [lowBitsList]

theorem b32Drain_snd (value k : Nat) : (b32Drain value k).2 = k % 5 := by
  have aux : ∀ N k, k ≤ N → (b32Drain value k).2 = k % 5 := by
    intro N
    induction N with
    | zero =>
      intro k hk
      have hk0 : k = 0 := by omega
      subst hk0
      rfl
    | succ N ih =>
      intro k hk
      match k with
      | 0 => rfl
      | 1 => rfl
      | 2 => rfl
      | 3 => rfl
      | 4 => rfl
      | b + 5 =>
        show (b32Drain value b).2 = (b + 5) % 5
        rw [ih b (by omega), Nat.add_mod_right]
  exact aux k k (Nat.le_refl k)

theorem b32Drain_fst_chunk (value k : Nat) (tail : List Nat) :
    (b32Drain value k).1 ++ chunk5 (lowBitsList value (k % 5) ++ tail)
      = chunk5 (lowBitsList value k ++ tail) := by
  have aux : ∀ N k, k ≤ N → ∀ tail : List Nat,
      (b32Drain value k).1 ++ chunk5 (lowBitsList value (k % 5) ++ tail)
        = chunk5 (lowBitsList value k ++ tail) := by
    intro N
    induction N with
    | zero =>
      intro k hk tail
      have hk0 : k = 0 := by omega
      subst hk0
      rfl
    | succ N ih =>
      intro k hk tail
      match k with
      | 0 => rfl
      | 1 => rfl
      | 2 => rfl
      | 3 => rfl
      | 4 => rfl
      | b + 5 =>
        have hpos : 0 < 2 ^ b := Nat.pos_pow_of_pos b (by norm_num)
        have ha : value / 2 ^ b % 32 < 32 := Nat.mod_lt _ (by norm_num)
        have hs : (value >>> b) &&& 0x1f = value / 2 ^ b % 32 := by
          rw [Nat.shiftRight_eq_div_pow, and_31_eq_mod]
        have hp : (2 : Nat) ^ (b + 5) = 2 ^ b * 32 := by
          rw [Nat.pow_add]
        have hmod : value % 2 ^ (b + 5) = value / 2 ^ b % 32 * 2 ^ b + value % 2 ^ b := by
          rw [hp, Nat.mod_mul, Nat.mul_comm (2 ^ b), Nat.add_comm]
        have hlt : value / 2 ^ b % 32 * 2 ^ b + value % 2 ^ b < 2 ^ (b + 5) := by
          have h1 : value % 2 ^ b < 2 ^ b := Nat.mod_lt _ hpos
          rw [hp]
          calc value / 2 ^ b % 32 * 2 ^ b + value % 2 ^ b
              < (value / 2 ^ b % 32 + 1) * 2 ^ b := by ring_nf; omega
            _ ≤ 32 * 2 ^ b := Nat.mul_le_mul_right _ (by omega)
            _ = 2 ^ b * 32 := Nat.mul_comm _ _
        have hsplit : lowBitsList value (b + 5)
            = lowBitsList (value / 2 ^ b % 32) 5 ++ lowBitsList value b := by
          have h1 : lowBitsList value (b + 5)
              = lowBitsList (value / 2 ^ b % 32 * 2 ^ b + value % 2 ^ b) (b + 5) :=
            lowBitsList_congr _ (by rw [hmod, Nat.mod_eq_of_lt hlt])
          have h2 := lowBitsList_mul_add (value % 2 ^ b) b (Nat.mod_lt _ hpos) 5 (value / 2 ^ b % 32)
          have h3 : lowBitsList (value % 2 ^ b) b = lowBitsList value b :=
            lowBitsList_congr _ (Nat.mod_mod_of_dvd value dvd_rfl)
          rw [h1, Nat.add_comm b 5, h2, h3]
        have hhead : 16 * (value / 2 ^ b % 32 / 16 % 2) + 8 * (value / 2 ^ b % 32 / 8 % 2)
            + 4 * (value / 2 ^ b % 32 / 4 % 2) + 2 * (value / 2 ^ b % 32 / 2 % 2)
            + value / 2 ^ b % 32 % 2 = value / 2 ^ b % 32 := by omega
        have hfinal : chunk5 ((value / 2 ^ b % 32 / 16 % 2) :: (value / 2 ^ b % 32 / 8 % 2)
            :: (value / 2 ^ b % 32 / 4 % 2) :: (value / 2 ^ b % 32 / 2 % 2)
            :: (value / 2 ^ b % 32 % 2) :: (lowBitsList value b ++ tail))
            = value / 2 ^ b % 32 :: chunk5 (lowBitsList value b ++ tail) := by
          simp only [chunk5]
          rw [hhead]
        show ((value >>> b) &&& 0x1f) :: (b32Drain value b).1
            ++ chunk5 (lowBitsList value ((b + 5) % 5) ++ tail)
            = chunk5 (lowBitsList value (b + 5) ++ tail)
        rw [Nat.add_mod_right, List.cons_append, ih b (by omega) tail, hs, hsplit,
          lowBitsList_five, List.append_assoc]
        exact hfinal.symm
  exact aux k k (Nat.le_refl k) tail

theorem chunk5_partial (value bits : Nat) (hb : bits < 5) :
    (if 0 < bits then [(value <<< (5 - bits)) &&& 0x1f] else [])
      = chunk5 (lowBitsList value bits) := by
  interval_cases bits
  · rfl
  · have h : value * 16 % 32 = value % 2 * 16 := Nat.mul_mod_mul_right 16 value 2
    have hm : value / 2 ^ 0 % 2 = value % 2 := by norm_num
    simp only [lowBitsList, hm]
    rw [if_pos (by norm_num)]
    simp only [chunk5, Nat.shiftLeft_eq, and_31_eq_mod]
    norm_num [h]
  · have h : value * 8 % 32 = value % 4 * 8 := Nat.mul_mod_mul_right 8 value 4
    have hm : 2 * (value / 2 % 2) + value % 2 = value % 4 := by omega
    have h0 : value / 2 ^ 0 % 2 = value % 2 := by norm_num
    have h1 : value / 2 ^ 1 % 2 = value / 2 % 2 := by norm_num
    simp only [lowBitsList, h0, h1]
    rw [if_pos (by norm_num)]
    simp only [chunk5, Nat.shiftLeft_eq, and_31_eq_mod]
    norm_num [h, hm]
  · have h : value * 4 % 32 = value % 8 * 4 := Nat.mul_mod_mul_right 4 value 8
    have hm : 4 * (value / 4 % 2) + 2 * (value / 2 % 2) + value % 2 = value % 8 := by omega
    have h0 : value / 2 ^ 0 % 2 = value % 2 := by norm_num
    have h1 : value / 2 ^ 1 % 2 = value / 2 % 2 := by norm_num
    have h2 : value / 2 ^ 2 % 2 = value / 4 % 2 := by norm_num
    simp only [lowBitsList, h0, h1, h2]
    rw [if_pos (by norm_num)]
    simp only [chunk5, Nat.shiftLeft_eq, and_31_eq_mod]
    norm_num [h, hm]
  · have h : value * 2 % 32 = value % 16 * 2 := Nat.mul_mod_mul_right 2 value 16
    have hm : 8 * (value / 8 % 2) + 4 * (value / 4 % 2) + 2 * (value / 2 % 2) + value % 2
        = value % 16 := by omega
    have h0 : value / 2 ^ 0 % 2 = value % 2 := by norm_num
    have h1 : value / 2 ^ 1 % 2 = value / 2 % 2 := by norm_num
    have h2 : value / 2 ^ 2 % 2 = value / 4 % 2 := by norm_num
    have h3 : value / 2 ^ 3 % 2 = value / 8 % 2 := by norm_num
    simp only [lowBitsList, h0, h1, h2, h3]
    rw [if_pos (by norm_num)]
    simp only [chunk5, Nat.shiftLeft_eq, and_31_eq_mod]
    norm_num [h, hm]

theorem b32Loop_chunk : ∀ (bs : List Nat), (∀ x ∈ bs, x < 256) → ∀ value bits, bits < 5 →
    b32Loop bs value bits = chunk5 (lowBitsList value bits ++ bs.flatMap byteBitsMSB) := by
  intro bs
  induction bs with
  | nil =>
    intro _ value bits hb
    show (if 0 < bits then [(value <<< (5 - bits)) &&& 0x1f] else [])
      = chunk5 (lowBitsList value bits ++ ([] : List Nat).flatMap byteBitsMSB)
    rw [List.flatMap_nil, List.append_nil]
    exact chunk5_partial value bits hb
  | cons byte rest ih =>
    intro h value bits hb
    have hbyte : byte < 256 := h byte (List.mem_cons_self _ _)
    have hrest : ∀ x ∈ rest, x < 256 := fun x hx => h x (List.mem_cons_of_mem _ hx)
    have hbits8 : (2 : Nat) ^ (bits + 8) = 2 ^ bits * 256 := by
      rw [Nat.pow_add]
    have hdvd : (2 : Nat) ^ (bits + 8) ∣ 2 ^ 32 := pow_dvd_pow 2 (by omega)
    have hU : UINT32_LIMIT = 2 ^ 32 := by norm_num [UINT32_LIMIT]
    have hX : ((value <<< 8) ||| byte) % UINT32_LIMIT % 2 ^ (bits + 8)
        = value % 2 ^ bits * 256 + byte := by
      rw [shiftLeft_or_byte value byte hbyte, hU, Nat.mod_mod_of_dvd _ hdvd, hbits8,
        Nat.mul_comm (2 ^ bits) 256, Nat.mod_mul]
      have h1 : (value * 256 + byte) % 256 = byte := by
        rw [Nat.mul_comm value 256, Nat.mul_add_mod, Nat.mod_eq_of_lt hbyte]
      have h2 : (value * 256 + byte) / 256 = value := by
        rw [Nat.mul_comm value 256, Nat.add_comm,
          Nat.add_mul_div_left _ _ (by norm_num : (0 : Nat) < 256),
          Nat.div_eq_of_lt hbyte, Nat.zero_add]
      rw [h1, h2, Nat.mul_comm 256 (value % 2 ^ bits), Nat.add_comm]
    have hXlt : value % 2 ^ bits * 256 + byte < 2 ^ (bits + 8) := by
      have h1 : value % 2 ^ bits < 2 ^ bits := Nat.mod_lt _ (Nat.pos_pow_of_pos bits (by norm_num))
      rw [hbits8]
      calc value % 2 ^ bits * 256 + byte < (value % 2 ^ bits + 1) * 256 := by ring_nf; omega
        _ ≤ 2 ^ bits * 256 := Nat.mul_le_mul_right _ (by omega)
    have hsplit : lowBitsList (((value <<< 8) ||| byte) % UINT32_LIMIT) (bits + 8)
        = lowBitsList value bits ++ byteBitsMSB byte := by
      have h1 := lowBitsList_congr (x := ((value <<< 8) ||| byte) % UINT32_LIMIT)
        (y := value % 2 ^ bits * 256 + byte) (bits + 8)
        (by rw [hX, Nat.mod_eq_of_lt hXlt])
      have h2 := lowBitsList_mul_add byte 8 (by simpa using hbyte) bits (value % 2 ^ bits)
      have h3 : lowBitsList (value % 2 ^ bits) bits = lowBitsList value bits :=
        lowBitsList_congr _ (Nat.mod_mod_of_dvd value dvd_rfl)
      norm_num at h2
      rw [h1, h2, h3]
      rfl
    have hlt5 : (bits + 8) % 5 < 5 := Nat.mod_lt _ (by norm_num)
    rw [List.flatMap_cons]
    simp only [b32Loop]
    rw [b32Drain_snd, ih hrest _ _ hlt5, b32Drain_fst_chunk, hsplit, List.append_assoc]

theorem wordToBytesBE_lt {x w : Nat} (hx : x ∈ wordToBytesBE w) : x < 256 := by
  simp only [wordToBytesBE, List.mem_cons, List.not_mem_nil, or_false] at hx
  rcases hx with h | h | h | h <;> subst h <;> exact Nat.lt_succ_of_le Nat.and_le_right

theorem sha256_byte_lt {x : Nat} (msg : List Nat) (hx : x ∈ sha256 msg) : x < 256 := by
  unfold sha256 at hx
  rw [List.mem_flatMap] at hx
  obtain ⟨w, _, hw⟩ := hx
  exact wordToBytesBE_lt hw

theorem writeBigUInt64BE_eq_spec (n : Nat) : writeBigUInt64BE n = beBytes8Spec n := by
  simp only [writeBigUInt64BE, beBytes8Spec, Nat.shiftRight_eq_div_pow, and_255_eq_mod]

theorem base32Encode_eq_spec (bytes : List Nat) (h : ∀ x ∈ bytes, x < 256) :
    base32Encode bytes = "b" ++ String.mk ((base32SpecSymbols bytes).map base32CharAt) := by
  unfold base32Encode
  rw [b32Loop_chunk bytes h 0 0 (by norm_num)]
  rfl

/-- Claim C1: for every file, `computeMidHash256Sync` returns exactly the
string `b` followed by the lowercase RFC4648 no-padding base32 encoding
(5 bits at a time, most-significant-bit first, trailing group left-shifted)
of the 38-byte sequence `[0x01][0x80 0x20][0x80 0x20][0x20]` ++ SHA-256
digest, where the digest input is the 8-byte big-endian file length
followed by the sample (the whole file when the length is at most
1,048,576 bytes, otherwise 1,048,576 bytes from offset
`(L - 1048576) / 2`). -/
theorem computeMidHash256Sync_eq_spec (file : List Nat) :
    computeMidHash256Sync file = computeContentIdentifierSpec file := by
  have hS : SAMPLE_SIZE = 1048576 := by norm_num [SAMPLE_SIZE]
  have hcid : [0x01] ++ MIDHASH_VARINT ++ MIDHASH_VARINT ++ [0x20]
      ++ sha256 (writeBigUInt64BE file.length ++
        (if file.length ≤ SAMPLE_SIZE then file
         else (file.drop ((file.length - SAMPLE_SIZE) / 2)).take SAMPLE_SIZE))
      = specCidBytes file := by
    rw [writeBigUInt64BE_eq_spec, hS]
    simp only [specCidBytes, specDigestInput, specSample, MIDHASH_VARINT]
    rfl
  have hlt : ∀ x ∈ specCidBytes file, x < 256 := by
    intro x hx
    simp only [specCidBytes, List.mem_append, List.mem_cons, List.not_mem_nil, or_false] at hx
    rcases hx with (h | h | h | h | h | h) | h
    · omega
    · omega
    · omega
    · omega
    · omega
    · omega
    · exact sha256_byte_lt _ h
  show base32Encode ([0x01] ++ MIDHASH_VARINT ++ MIDHASH_VARINT ++ [0x20]
      ++ sha256 (writeBigUInt64BE file.length ++
        (if file.length ≤ SAMPLE_SIZE then file
         else (file.drop ((file.length - SAMPLE_SIZE) / 2)).take SAMPLE_SIZE)))
      = computeContentIdentifierSpec file
  rw [hcid, base32Encode_eq_spec _ hlt]
  rfl

/-! ### Stream classification (src/index.ts lines 126-145 and 263-310)

The metadata bag is a string-to-string record (`get`); the result of
`JSON.parse` on its `streams` field is abstracted as `parsedStreams`
(`none` models a parse failure, raw entries may miss any field). -/

def UNSUPPORTED_SUBTITLE_CODECS : List String :=
  ["hdmv_pgs_subtitle", "pgssub", "dvd_subtitle", "dvdsub", "dvb_subtitle", "dvbsub", "xsub"]

def CODEC_EXTENSION_MAP : List (String × String) :=
  [("subrip", "srt"), ("srt", "srt"), ("ass", "ass"), ("ssa", "ssa"),
   ("webvtt", "vtt"), ("mov_text", "srt"), ("text", "srt")]

structure SubtitleStream where
  index : Nat
  codec : String
  language : Option String
  title : Option String
deriving DecidableEq

structure RawStream where
  codec_type : Option String
  codec_name : Option String
  language : Option String
  title : Option String
deriving DecidableEq

structure ExistingMeta where
  get : String → Option String
  parsedStreams : Option (List RawStream)

/-- The JSON branch of `parseSubtitleStreams`: keep entries whose
`codec_type` is `subtitle`, numbering them with a running counter. -/
def jsonSubtitleStreams : List RawStream → Nat → List SubtitleStream
  | [], _ => []
  | s :: rest, subtitleIndex =>
    if s.codec_type = some "subtitle" then
      { index := subtitleIndex,
        codec := jsOrDefault s.codec_name "unknown",
        language := s.language,
        title := s.title } :: jsonSubtitleStreams rest (subtitleIndex + 1)
    else
      jsonSubtitleStreams rest subtitleIndex

def subtitleFieldKey (i : Nat) (kind : String) : String :=
  "subtitle_" ++ toString i ++ "_" ++ kind

/-- The fallback branch: `for (let i = 0; i < 20; i++)` keeps every index
whose `subtitle_{i}_codec` field is truthy, with `index: i`. -/
def scanSubtitleFields (m : ExistingMeta) : Nat → Nat → List SubtitleStream
  | 0, _ => []
  | fuel + 1, i =>
    match jsTruthy (m.get (subtitleFieldKey i "codec")) with
    | some codec =>
      { index := i, codec := codec,
        language := m.get (subtitleFieldKey i "language"),
        title := m.get (subtitleFieldKey i "title") }
        :: scanSubtitleFields m fuel (i + 1)
    | none => scanSubtitleFields m fuel (i + 1)

/-- Embedding of `parseSubtitleStreams` (lines 263-310). -/
def parseSubtitleStreams (m : ExistingMeta) : List SubtitleStream :=
  let fromJson :=
    match jsTruthy (m.get "streams"), m.parsedStreams with
    | some _, some allStreams => jsonSubtitleStreams allStreams 0
    | _, _ => []
  if fromJson = [] then scanSubtitleFields m 20 0 else fromJson

/-! ### Filename sanitization (`sanitizeFilename`, lines 246-251) -/

def invalidFilenameChars : List Char :=
  ['<', '>', ':', '"', '/', '\\', '|', '?', '*']

/-- JS `.replace(/\s+/g, ' ')`: collapse each whitespace run to one space. -/
def collapseWhitespace : List Char → List Char
  | [] => []
  | c :: rest =>
    if c.isWhitespace then
      match collapseWhitespace rest with
      | ' ' :: tail => ' ' :: tail
      | tail => ' ' :: tail
    else c :: collapseWhitespace rest

def sanitizeFilename (name : String) : String :=
  let removed := name.toList.filter (fun c => !(invalidFilenameChars.contains c))
  let collapsed := collapseWhitespace removed
  String.mk (((collapsed.dropWhile (· = ' ')).reverse.dropWhile (· = ' ')).reverse)

/-! ### External tool invocation (`extractSubtitle`, lines 315-379) -/

def ffmpegOutputCodec (outputFormat : String) : String :=
  if outputFormat = "vtt" then "webvtt"
  else if outputFormat = "ass" then "ass"
  else "srt"

def EXTRACT_TIMEOUT_MS : Nat := 120000

/-- Observable behaviour of one ffmpeg run: how long it took to close, the
exit code (`none` for a signal death), and whether/with which size the
output file exists when the close handler inspects it. -/
structure ToolRun where
  durationMs : Nat
  exitCode : Option Int
  outExists : Bool
  outSize : Nat
deriving DecidableEq

structure ExtractResult where
  extracted : Bool
  unlinked : Bool
  killSignal : Option String
deriving DecidableEq

/-- The `close` handler (lines 351-366): accept exactly when the exit code
is 0, the output exists and is strictly larger than 10 bytes; `unlinkSync`
runs only in the undersized branch of that same path. -/
def ffmpegCloseResult (code : Option Int) (outExists : Bool) (outSize : Nat) : Bool × Bool :=
  if code = some 0 ∧ outExists = true then
    if 10 < outSize then (true, false) else (false, true)
  else (false, false)

/-- Whole-invocation model: when the process has not closed within the
2-minute bound the `setTimeout` (lines 374-377) fires first, kills it with
SIGKILL and resolves `false`; otherwise the close handler decides. -/
def extractSubtitleModel (r : ToolRun) : ExtractResult :=
  if EXTRACT_TIMEOUT_MS ≤ r.durationMs then
    { extracted := false, unlinked := false, killSignal := some "SIGKILL" }
  else
    { extracted := (ffmpegCloseResult r.exitCode r.outExists r.outSize).1,
      unlinked := (ffmpegCloseResult r.exitCode r.outExists r.outSize).2,
      killSignal := none }

/-! ### The run orchestrator (`process`, lines 381-535)

Filesystem and tool effects come from an `Env`; the result records the
callback status and every externally visible effect in order. -/

structure ToolCall where
  subtitleIndex : Nat
  outputCodec : String
  outputPath : String
deriving DecidableEq

structure Config where
  forceRecompute : Bool
  outputFormat : String
deriving DecidableEq

structure Request where
  cid : String
  filePath : String
  meta : ExistingMeta

structure Env where
  outputDirExists : Bool
  outputExists : String → Bool
  fileBytes : String → List Nat
  toolRun : Nat → String → ToolRun
  producedBytes : String → List Nat

def PLUGIN_OUTPUT_PATH : String := "/output"

structure LoopState where
  extractedCids : List String := []
  extractedLanguages : List String := []
  toolCalls : List ToolCall := []
  addToSetCalls : List (String × String × String) := []
  unlinkCalls : List String := []
  kills : List (Nat × String) := []
deriving DecidableEq

/-- Output path of a stream (lines 465-471): title, optional year, the
video CID in brackets, `_subtitle`, language-or-index suffix, extension. -/
def subOutputPath (cfg : Config) (cid safeTitle yearStr : String) (sub : SubtitleStream) : String :=
  let langSuffix :=
    match jsTruthy sub.language with
    | some l => "." ++ l
    | none => "." ++ toString sub.index
  PLUGIN_OUTPUT_PATH ++ "/" ++ safeTitle ++ yearStr ++ "[" ++ cid ++ "]_subtitle"
    ++ langSuffix ++ "." ++ cfg.outputFormat

/-- Local language accumulation with the source's dedup
(`if (sub.language && !extractedLanguages.includes(sub.language))`). -/
def pushLanguage (langs : List String) (l? : Option String) : List String :=
  match jsTruthy l? with
  | some l => if langs.contains l then langs else langs ++ [l]
  | none => langs

/-- The per-stream loop of `process` (lines 464-513). -/
def processStreams (env : Env) (cfg : Config) (cid safeTitle yearStr : String) :
    List SubtitleStream → LoopState → LoopState
  | [], st => st
  | sub :: rest, st =>
    let outputPath := subOutputPath cfg cid safeTitle yearStr sub
    if env.outputExists outputPath && !cfg.forceRecompute then
      let subtitleCid := computeMidHash256Sync (env.fileBytes outputPath)
      let st1 := { st with
        extractedCids := st.extractedCids ++ [subtitleCid],
        extractedLanguages := pushLanguage st.extractedLanguages sub.language }
      processStreams env cfg cid safeTitle yearStr rest st1
    else
      let eres := extractSubtitleModel (env.toolRun sub.index outputPath)
      let st1 := { st with
        toolCalls := st.toolCalls ++
          [{ subtitleIndex := sub.index,
             outputCodec := ffmpegOutputCodec cfg.outputFormat,
             outputPath := outputPath }],
        unlinkCalls := st.unlinkCalls ++ (if eres.unlinked then [outputPath] else []),
        kills := st.kills ++
          (match eres.killSignal with
           | some sig => [(sub.index, sig)]
           | none => []) }
      if eres.extracted then
        let subtitleCid := computeMidHash256Sync (env.producedBytes outputPath)
        let st2 := { st1 with
          extractedCids := st1.extractedCids ++ [subtitleCid],
          extractedLanguages := pushLanguage st1.extractedLanguages sub.language,
          addToSetCalls := st1.addToSetCalls
            ++ [(cid, "extractedSubtitles", subtitleCid)]
            ++ (match jsTruthy sub.language with
                | some l => [(cid, "subtitleLanguages", l)]
                | none => []) }
        processStreams env cfg cid safeTitle yearStr rest st2
      else
        processStreams env cfg cid safeTitle yearStr rest st1

structure ProcessResult where
  status : String
  reason : Option String
  mkdirCalled : Bool
  loop : LoopState
deriving DecidableEq

/-- Title resolution (line 455): `originalTitle || title || fileName || 'video'`. -/
def videoTitle (m : ExistingMeta) : String :=
  jsOrDefault (m.get "originalTitle")
    (jsOrDefault (m.get "title") (jsOrDefault (m.get "fileName") "video"))

/-- Year suffix (lines 457-458). -/
def yearSuffix (m : ExistingMeta) : String :=
  match jsTruthy (m.get "movieYear") with
  | some y => " (" ++ y ++ ")"
  | none => ""

/-- The classified streams the loop runs over (line 427): only the
image-based set is filtered out. -/
def textSubtitlesOf (m : ExistingMeta) : List SubtitleStream :=
  (parseSubtitleStreams m).filter (fun s => !(UNSUPPORTED_SUBTITLE_CODECS.contains s.codec))

/-- Embedding of `process` (lines 381-535): the short-circuits in source
order, then the per-stream loop; the callback's `duration` field and the
WebDAV input-path rewriting are not modelled (no claim concerns them). -/
def processModel (req : Request) (cfg : Config) (env : Env) : ProcessResult :=
  if req.meta.get "fileType" ≠ some "video" then
    { status := "skipped", reason := some "Not a video file",
      mkdirCalled := false, loop := {} }
  else if (jsTruthy (req.meta.get "extractedSubtitles")).isSome = true
      ∧ cfg.forceRecompute = false then
    { status := "skipped", reason := some "Subtitles already extracted",
      mkdirCalled := false, loop := {} }
  else
    if parseSubtitleStreams req.meta = [] then
      { status := "skipped", reason := some "No subtitle streams found",
        mkdirCalled := false, loop := {} }
    else
      if textSubtitlesOf req.meta = [] then
        { status := "skipped",
          reason := some "Only image-based subtitles (cannot convert to text)",
          mkdirCalled := false, loop := {} }
      else
        let safeTitle := sanitizeFilename (videoTitle req.meta)
        let yearStr := yearSuffix req.meta
        let st := processStreams env cfg req.cid safeTitle yearStr (textSubtitlesOf req.meta) {}
        { status := "completed", reason := none,
          mkdirCalled := !env.outputDirExists, loop := st }

/-! ### Per-stream characterization of the loop -/

/-- Whether the loop reaches the tool for a stream (negation of the
already-exists fast path condition). -/
def streamNeedsTool (env : Env) (cfg : Config) (cid safeTitle yearStr : String)
    (s : SubtitleStream) : Bool :=
  !(env.outputExists (subOutputPath cfg cid safeTitle yearStr s) && !cfg.forceRecompute)

/-- The recorded invocation for a stream reaching the tool. -/
def streamCall (cfg : Config) (cid safeTitle yearStr : String) (s : SubtitleStream) : ToolCall :=
  { subtitleIndex := s.index,
    outputCodec := ffmpegOutputCodec cfg.outputFormat,
    outputPath := subOutputPath cfg cid safeTitle yearStr s }

def streamToolResult (env : Env) (cfg : Config) (cid safeTitle yearStr : String)
    (s : SubtitleStream) : ExtractResult :=
  extractSubtitleModel (env.toolRun s.index (subOutputPath cfg cid safeTitle yearStr s))

/-- CIDs a single stream contributes to the local result array. -/
def streamCids (env : Env) (cfg : Config) (cid safeTitle yearStr : String)
    (s : SubtitleStream) : List String :=
  if env.outputExists (subOutputPath cfg cid safeTitle yearStr s) && !cfg.forceRecompute then
    [computeMidHash256Sync (env.fileBytes (subOutputPath cfg cid safeTitle yearStr s))]
  else if (streamToolResult env cfg cid safeTitle yearStr s).extracted then
    [computeMidHash256Sync (env.producedBytes (subOutputPath cfg cid safeTitle yearStr s))]
  else []

/-- Metadata-store writes a single stream issues. -/
def streamAddToSets (env : Env) (cfg : Config) (cid safeTitle yearStr : String)
    (s : SubtitleStream) : List (String × String × String) :=
  if env.outputExists (subOutputPath cfg cid safeTitle yearStr s) && !cfg.forceRecompute then
    []
  else if (streamToolResult env cfg cid safeTitle yearStr s).extracted then
    [(cid, "extractedSubtitles",
      computeMidHash256Sync (env.producedBytes (subOutputPath cfg cid safeTitle yearStr s)))]
      ++ (match jsTruthy s.language with
          | some l => [(cid, "subtitleLanguages", l)]
          | none => [])
  else []

theorem processStreams_toolCalls (env : Env) (cfg : Config) (cid safeTitle yearStr : String) :
    ∀ (subs : List SubtitleStream) (st : LoopState),
      (processStreams env cfg cid safeTitle yearStr subs st).toolCalls
        = st.toolCalls
          ++ (subs.filter (streamNeedsTool env cfg cid safeTitle yearStr)).map
              (streamCall cfg cid safeTitle yearStr) := by
  intro subs
  induction subs with
  | nil => intro st; simp [processStreams]
  | cons sub rest ih =>
    intro st
    simp only [processStreams]
    cases hb : env.outputExists (subOutputPath cfg cid safeTitle yearStr sub)
      && !cfg.forceRecompute with
    | true =>
      rw [if_pos rfl]
      rw [ih]
      have hn : streamNeedsTool env cfg cid safeTitle yearStr sub = false := by
        simp [streamNeedsTool, hb]
      simp [List.filter_cons, hn]
    | false =>
      rw [if_neg Bool.false_ne_true]
      have hn : streamNeedsTool env cfg cid safeTitle yearStr sub = true := by
        simp [streamNeedsTool, hb]
      cases he : (extractSubtitleModel
          (env.toolRun sub.index (subOutputPath cfg cid safeTitle yearStr sub))).extracted with
      | true =>
        rw [if_pos rfl]
        rw [ih]
        simp [List.filter_cons, hn, streamCall, List.append_assoc]
      | false =>
        rw [if_neg Bool.false_ne_true]
        rw [ih]
        simp [List.filter_cons, hn, streamCall, List.append_assoc]

theorem processStreams_cids (env : Env) (cfg : Config) (cid safeTitle yearStr : String) :
    ∀ (subs : List SubtitleStream) (st : LoopState),
      (processStreams env cfg cid safeTitle yearStr subs st).extractedCids
        = st.extractedCids ++ subs.flatMap (streamCids env cfg cid safeTitle yearStr) := by
  intro subs
  induction subs with
  | nil => intro st; simp [processStreams]
  | cons sub rest ih =>
    intro st
    simp only [processStreams, List.flatMap_cons]
    cases hb : env.outputExists (subOutputPath cfg cid safeTitle yearStr sub)
      && !cfg.forceRecompute with
    | true =>
      rw [if_pos rfl]
      rw [ih]
      simp [streamCids, hb, List.append_assoc]
    | false =>
      rw [if_neg Bool.false_ne_true]
      cases he : (extractSubtitleModel
          (env.toolRun sub.index (subOutputPath cfg cid safeTitle yearStr sub))).extracted with
      | true =>
        rw [if_pos rfl]
        rw [ih]
        simp [streamCids, streamToolResult, hb, he, List.append_assoc]
      | false =>
        rw [if_neg Bool.false_ne_true]
        rw [ih]
        simp [streamCids, streamToolResult, hb, he]

theorem processStreams_addToSets (env : Env) (cfg : Config) (cid safeTitle yearStr : String) :
    ∀ (subs : List SubtitleStream) (st : LoopState),
      (processStreams env cfg cid safeTitle yearStr subs st).addToSetCalls
        = st.addToSetCalls ++ subs.flatMap (streamAddToSets env cfg cid safeTitle yearStr) := by
  intro subs
  induction subs with
  | nil => intro st; simp [processStreams]
  | cons sub rest ih =>
    intro st
    simp only [processStreams, List.flatMap_cons]
    cases hb : env.outputExists (subOutputPath cfg cid safeTitle yearStr sub)
      && !cfg.forceRecompute with
    | true =>
      rw [if_pos rfl]
      rw [ih]
      simp [streamAddToSets, hb]
    | false =>
      rw [if_neg Bool.false_ne_true]
      cases he : (extractSubtitleModel
          (env.toolRun sub.index (subOutputPath cfg cid safeTitle yearStr sub))).extracted with
      | true =>
        rw [if_pos rfl]
        rw [ih]
        simp [streamAddToSets, streamToolResult, hb, he, List.append_assoc]
      | false =>
        rw [if_neg Bool.false_ne_true]
        rw [ih]
        simp [streamAddToSets, streamToolResult, hb, he]

/-! ### Classifier lemmas (claim C9) -/

theorem jsonSubtitleStreams_indexes : ∀ (raws : List RawStream) (k : Nat),
    (jsonSubtitleStreams raws k).map SubtitleStream.index
      = List.range' k (jsonSubtitleStreams raws k).length := by
  intro raws
  induction raws with
  | nil => intro k; rfl
  | cons s rest ih =>
    intro k
    simp only [jsonSubtitleStreams]
    by_cases h : s.codec_type = some "subtitle"
    · rw [if_pos h]
      simp only [List.map_cons, List.length_cons, List.range'_succ, ih (k + 1)]
    · rw [if_neg h]
      exact ih k

/-- The stream the fallback scanner surfaces at field index `i`, if any. -/
def fallbackStreamAt (m : ExistingMeta) (i : Nat) : Option SubtitleStream :=
  match jsTruthy (m.get (subtitleFieldKey i "codec")) with
  | some codec =>
    some { index := i, codec := codec,
           language := m.get (subtitleFieldKey i "language"),
           title := m.get (subtitleFieldKey i "title") }
  | none => none

theorem scanSubtitleFields_eq_filterMap (m : ExistingMeta) :
    ∀ (fuel i : Nat),
      scanSubtitleFields m fuel i = (List.range' i fuel).filterMap (fallbackStreamAt m) := by
  intro fuel
  induction fuel with
  | zero => intro i; rfl
  | succ fuel ih =>
    intro i
    rw [List.range'_succ]
    simp only [scanSubtitleFields, List.filterMap_cons, fallbackStreamAt]
    cases h : jsTruthy (m.get (subtitleFieldKey i "codec")) with
    | some codec => simp only [h, ih (i + 1)]
    | none => simp only [h, ih (i + 1)]

theorem scanSubtitleFields_index_found (m : ExistingMeta) :
    ∀ (fuel i : Nat) (s : SubtitleStream), s ∈ scanSubtitleFields m fuel i →
      jsTruthy (m.get (subtitleFieldKey s.index "codec")) = some s.codec := by
  intro fuel
  induction fuel with
  | zero => intro i s h; cases h
  | succ fuel ih =>
    intro i s h
    revert h
    simp only [scanSubtitleFields]
    cases hc : jsTruthy (m.get (subtitleFieldKey i "codec")) with
    | some codec =>
      intro h
      rcases List.mem_cons.mp h with h1 | h2
      · subst h1
        simpa using hc
      · exact ih (i + 1) s h2
    | none =>
      intro h
      exact ih (i + 1) s h

/-! ### Shared concrete fixtures -/

def defaultCfg : Config := { forceRecompute := false, outputFormat := "srt" }

def emptyMeta : ExistingMeta := { get := fun _ => none, parsedStreams := none }

/-- A run environment where no output exists and every tool run dies fast. -/
def envNoFiles : Env where
  outputDirExists := true
  outputExists := fun _ => false
  fileBytes := fun _ => []
  toolRun := fun _ _ => { durationMs := 0, exitCode := none, outExists := false, outSize := 0 }
  producedBytes := fun _ => []

/-- Like `envNoFiles` but every tool run blows through the 2-minute bound. -/
def envTimeout : Env where
  outputDirExists := true
  outputExists := fun _ => false
  fileBytes := fun _ => []
  toolRun := fun _ _ => { durationMs := 180000, exitCode := none, outExists := false, outSize := 0 }
  producedBytes := fun _ => []

/-- An environment where every derived output path already exists on disk. -/
def envAllExists : Env where
  outputDirExists := true
  outputExists := fun _ => true
  fileBytes := fun _ => []
  toolRun := fun _ _ => { durationMs := 0, exitCode := none, outExists := false, outSize := 0 }
  producedBytes := fun _ => []

/-- Claim C6, counterexample input: exit code 1 with an existing 100-byte
output file. -/
def toolRunExitOne : ToolRun :=
  { durationMs := 0, exitCode := some 1, outExists := true, outSize := 100 }

/-- Claim C6 is false on the code at `toolRunExitOne`: the tool exited
nonzero while a 100-byte partial output exists, the stream is not accepted,
yet — contrary to the claim's "in every other case the partial output file
is discarded" — `unlinkSync` is not called (the source only unlinks in the
exit-0, undersized-file branch). -/
theorem extractSubtitle_failed_file_not_discarded :
    (extractSubtitleModel toolRunExitOne).extracted = false
    ∧ (extractSubtitleModel toolRunExitOne).unlinked = false := by
  decide

/-- Claim C6 (amended): a produced file is accepted iff the tool closed
within the timeout with exit code 0 and the output exists with size
strictly greater than 10 bytes; the output file is deleted only in the
single case where the tool exited 0 and the file exists with at most 10
bytes — in every other failure case no file is deleted. -/
theorem extractSubtitle_accept_unlink_conditions (r : ToolRun) :
    ((extractSubtitleModel r).extracted = true
      ↔ (r.durationMs < EXTRACT_TIMEOUT_MS ∧ r.exitCode = some 0
          ∧ r.outExists = true ∧ 10 < r.outSize))
    ∧ ((extractSubtitleModel r).unlinked = true
      ↔ (r.durationMs < EXTRACT_TIMEOUT_MS ∧ r.exitCode = some 0
          ∧ r.outExists = true ∧ r.outSize ≤ 10)) := by
  unfold extractSubtitleModel ffmpegCloseResult
  split_ifs with ht hc hs <;> simp_all

/-- Claim C7: an invocation whose tool run reaches the 2-minute bound
(`EXTRACT_TIMEOUT_MS = 120000` milliseconds) is killed with SIGKILL and
treated as failed; moreover tool outcomes (timeouts included) influence
neither the run status nor which streams get invoked — two environments
agreeing on which output files exist produce the same status and the same
tool invocation list, so a timed-out stream never aborts the rest. -/
theorem extractSubtitle_timeout_kills (r : ToolRun)
    (h : EXTRACT_TIMEOUT_MS ≤ r.durationMs) :
    ((extractSubtitleModel r).extracted = false
      ∧ (extractSubtitleModel r).killSignal = some "SIGKILL")
    ∧ ∀ (req : Request) (cfg : Config) (env₁ env₂ : Env),
        env₁.outputExists = env₂.outputExists →
          (processModel req cfg env₁).status = (processModel req cfg env₂).status
          ∧ (processModel req cfg env₁).loop.toolCalls
              = (processModel req cfg env₂).loop.toolCalls := by
  constructor
  · constructor
    · unfold extractSubtitleModel
      rw [if_pos h]
    · unfold extractSubtitleModel
      rw [if_pos h]
  · intro req cfg env₁ env₂ henv
    unfold processModel
    by_cases h1 : req.meta.get "fileType" ≠ some "video"
    · simp only [if_pos h1]
      exact ⟨trivial, trivial⟩
    · simp only [if_neg h1]
      by_cases h2 : (jsTruthy (req.meta.get "extractedSubtitles")).isSome = true
          ∧ cfg.forceRecompute = false
      · simp only [if_pos h2]
        exact ⟨trivial, trivial⟩
      · simp only [if_neg h2]
        by_cases h3 : parseSubtitleStreams req.meta = []
        · simp only [if_pos h3]
          exact ⟨trivial, trivial⟩
        · simp only [if_neg h3]
          by_cases h4 : textSubtitlesOf req.meta = []
          · simp only [if_pos h4]
            exact ⟨trivial, trivial⟩
          · simp only [if_neg h4]
            refine ⟨trivial, ?_⟩
            have hfun : streamNeedsTool env₁ cfg req.cid (sanitizeFilename (videoTitle req.meta))
                (yearSuffix req.meta)
                = streamNeedsTool env₂ cfg req.cid (sanitizeFilename (videoTitle req.meta))
                  (yearSuffix req.meta) := by
              funext s
              unfold streamNeedsTool
              rw [henv]
            show (processStreams env₁ cfg req.cid (sanitizeFilename (videoTitle req.meta))
                (yearSuffix req.meta) (textSubtitlesOf req.meta) {}).toolCalls
              = (processStreams env₂ cfg req.cid (sanitizeFilename (videoTitle req.meta))
                (yearSuffix req.meta) (textSubtitlesOf req.meta) {}).toolCalls
            rw [processStreams_toolCalls, processStreams_toolCalls, hfun]

/-- Any of the four short-circuit conditions yields the skip record. -/
theorem processModel_skip_cases (req : Request) (cfg : Config) (env : Env)
    (h : req.meta.get "fileType" ≠ some "video"
      ∨ ((jsTruthy (req.meta.get "extractedSubtitles")).isSome = true
          ∧ cfg.forceRecompute = false)
      ∨ parseSubtitleStreams req.meta = []
      ∨ ∀ s ∈ parseSubtitleStreams req.meta,
          UNSUPPORTED_SUBTITLE_CODECS.contains s.codec = true) :
    ∃ reason, processModel req cfg env
      = { status := "skipped", reason := some reason, mkdirCalled := false, loop := {} } := by
  by_cases h1 : req.meta.get "fileType" ≠ some "video"
  · exact ⟨"Not a video file", by unfold processModel; rw [if_pos h1]⟩
  · by_cases h2 : (jsTruthy (req.meta.get "extractedSubtitles")).isSome = true
        ∧ cfg.forceRecompute = false
    · exact ⟨"Subtitles already extracted", by unfold processModel; rw [if_neg h1, if_pos h2]⟩
    · by_cases h3 : parseSubtitleStreams req.meta = []
      · exact ⟨"No subtitle streams found", by
          unfold processModel; rw [if_neg h1, if_neg h2, if_pos h3]⟩
      · by_cases h4 : textSubtitlesOf req.meta = []
        · exact ⟨"Only image-based subtitles (cannot convert to text)", by
            unfold processModel; rw [if_neg h1, if_neg h2, if_neg h3, if_pos h4]⟩
        · exfalso
          rcases h with h | h | h | h
          · exact h1 h
          · exact h2 h
          · exact h3 h
          · apply h4
            unfold textSubtitlesOf
            rw [List.filter_eq_nil_iff]
            intro s hs
            simpa using h s hs

/-- When no short-circuit fires, the run is the completed record over the
per-stream loop. -/
theorem processModel_completed (req : Request) (cfg : Config) (env : Env)
    (h1 : req.meta.get "fileType" = some "video")
    (h2 : ¬((jsTruthy (req.meta.get "extractedSubtitles")).isSome = true
        ∧ cfg.forceRecompute = false))
    (h4 : textSubtitlesOf req.meta ≠ []) :
    processModel req cfg env
      = { status := "completed", reason := none, mkdirCalled := !env.outputDirExists,
          loop := processStreams env cfg req.cid (sanitizeFilename (videoTitle req.meta))
            (yearSuffix req.meta) (textSubtitlesOf req.meta) {} } := by
  have h3 : parseSubtitleStreams req.meta ≠ [] := by
    intro hnil
    apply h4
    unfold textSubtitlesOf
    rw [hnil]
    rfl
  unfold processModel
  rw [if_neg (not_not_intro h1), if_neg h2, if_neg h3, if_neg h4]

/-- Claim C3: whenever the metadata is not a video, or subtitles were
already extracted with `forceRecompute` off, or no subtitle stream parses,
or every parsed stream's codec is in the unsupported image-based list, the
run is skipped with a stated reason, the external tool is never invoked,
and nothing is written or deleted (output directory creation included). -/
theorem process_short_circuits_skip (req : Request) (cfg : Config) (env : Env)
    (h : req.meta.get "fileType" ≠ some "video"
      ∨ ((jsTruthy (req.meta.get "extractedSubtitles")).isSome = true
          ∧ cfg.forceRecompute = false)
      ∨ parseSubtitleStreams req.meta = []
      ∨ ∀ s ∈ parseSubtitleStreams req.meta,
          UNSUPPORTED_SUBTITLE_CODECS.contains s.codec = true) :
    (processModel req cfg env).status = "skipped"
    ∧ (processModel req cfg env).reason.isSome = true
    ∧ (processModel req cfg env).loop.toolCalls = []
    ∧ (processModel req cfg env).loop.unlinkCalls = []
    ∧ (processModel req cfg env).loop.addToSetCalls = []
    ∧ (processModel req cfg env).mkdirCalled = false := by
  obtain ⟨reason, hr⟩ := processModel_skip_cases req cfg env h
  rw [hr]
  exact ⟨rfl, rfl, rfl, rfl, rfl, rfl⟩

/-- Claim C3 witness: a request whose metadata is empty (hence not marked
as a video) is skipped without any effect. -/
def reqNotVideo : Request :=
  { cid := "bvid", filePath := "/files/a.bin", meta := emptyMeta }

theorem process_short_circuits_skip_witness :
    (processModel reqNotVideo defaultCfg envNoFiles).status = "skipped"
    ∧ (processModel reqNotVideo defaultCfg envNoFiles).reason.isSome = true
    ∧ (processModel reqNotVideo defaultCfg envNoFiles).loop.toolCalls = []
    ∧ (processModel reqNotVideo defaultCfg envNoFiles).loop.unlinkCalls = []
    ∧ (processModel reqNotVideo defaultCfg envNoFiles).loop.addToSetCalls = []
    ∧ (processModel reqNotVideo defaultCfg envNoFiles).mkdirCalled = false :=
  process_short_circuits_skip reqNotVideo defaultCfg envNoFiles (Or.inl (by decide))

/-- Claim C5: a stream whose derived output file already exists, with
`forceRecompute` off, is never the target of a tool invocation — no
recorded invocation carries its output path — and the CID computed from
the bytes of that existing file is collected into the run's results, so a
rerun over unchanged files reproduces the same identifier without
invoking the tool. -/
theorem existing_output_fast_path (req : Request) (cfg : Config) (env : Env)
    (s : SubtitleStream)
    (h1 : req.meta.get "fileType" = some "video")
    (h2 : ¬((jsTruthy (req.meta.get "extractedSubtitles")).isSome = true
        ∧ cfg.forceRecompute = false))
    (hforce : cfg.forceRecompute = false)
    (hs : s ∈ textSubtitlesOf req.meta)
    (hex : env.outputExists (subOutputPath cfg req.cid (sanitizeFilename (videoTitle req.meta))
        (yearSuffix req.meta) s) = true) :
    (∀ c ∈ (processModel req cfg env).loop.toolCalls,
        c.outputPath ≠ subOutputPath cfg req.cid (sanitizeFilename (videoTitle req.meta))
          (yearSuffix req.meta) s)
    ∧ computeMidHash256Sync (env.fileBytes (subOutputPath cfg req.cid
          (sanitizeFilename (videoTitle req.meta)) (yearSuffix req.meta) s))
        ∈ (processModel req cfg env).loop.extractedCids := by
  have h4 : textSubtitlesOf req.meta ≠ [] := by
    intro hnil
    rw [hnil] at hs
    cases hs
  rw [processModel_completed req cfg env h1 h2 h4]
  constructor
  · intro c hc
    show c.outputPath ≠ subOutputPath cfg req.cid (sanitizeFilename (videoTitle req.meta))
      (yearSuffix req.meta) s
    rw [processStreams_toolCalls] at hc
    rw [show (({} : LoopState)).toolCalls = [] from rfl, List.nil_append] at hc
    rw [List.mem_map] at hc
    obtain ⟨s', hs', hc⟩ := hc
    rw [List.mem_filter] at hs'
    intro hpath
    have hneed := hs'.2
    rw [← hc] at hpath
    have hpath' : subOutputPath cfg req.cid (sanitizeFilename (videoTitle req.meta))
        (yearSuffix req.meta) s' = subOutputPath cfg req.cid (sanitizeFilename (videoTitle req.meta))
        (yearSuffix req.meta) s := hpath
    unfold streamNeedsTool at hneed
    rw [hpath', hex, hforce] at hneed
    simp at hneed
  · show computeMidHash256Sync (env.fileBytes (subOutputPath cfg req.cid
        (sanitizeFilename (videoTitle req.meta)) (yearSuffix req.meta) s))
      ∈ (processStreams env cfg req.cid (sanitizeFilename (videoTitle req.meta))
        (yearSuffix req.meta) (textSubtitlesOf req.meta) {}).extractedCids
    rw [processStreams_cids]
    rw [show (({} : LoopState)).extractedCids = [] from rfl, List.nil_append]
    rw [List.mem_flatMap]
    refine ⟨s, hs, ?_⟩
    have hcond : (env.outputExists (subOutputPath cfg req.cid
        (sanitizeFilename (videoTitle req.meta)) (yearSuffix req.meta) s)
        && !cfg.forceRecompute) = true := by
      rw [hex, hforce]
      rfl
    unfold streamCids
    rw [if_pos hcond]
    exact List.mem_singleton_self _

/-- Metadata of the claim C5/C10 witnesses: a video with one `subrip`
stream carrying language `eng`. -/
def metaOneSub : ExistingMeta where
  get := fun k =>
    if k = "fileType" then some "video"
    else if k = "subtitle_0_codec" then some "subrip"
    else if k = "subtitle_0_language" then some "eng"
    else none
  parsedStreams := none

def reqOneSub : Request := { cid := "bvid", filePath := "/files/m.mkv", meta := metaOneSub }

theorem existing_output_fast_path_witness :
    (∀ c ∈ (processModel reqOneSub defaultCfg envAllExists).loop.toolCalls,
        c.outputPath ≠ subOutputPath defaultCfg reqOneSub.cid
          (sanitizeFilename (videoTitle reqOneSub.meta)) (yearSuffix reqOneSub.meta)
          { index := 0, codec := "subrip", language := some "eng", title := none })
    ∧ computeMidHash256Sync (envAllExists.fileBytes (subOutputPath defaultCfg reqOneSub.cid
          (sanitizeFilename (videoTitle reqOneSub.meta)) (yearSuffix reqOneSub.meta)
          { index := 0, codec := "subrip", language := some "eng", title := none }))
        ∈ (processModel reqOneSub defaultCfg envAllExists).loop.extractedCids :=
  existing_output_fast_path reqOneSub defaultCfg envAllExists
    { index := 0, codec := "subrip", language := some "eng", title := none }
    (by decide) (by decide) (by decide) (by decide) (by decide)

/-- The invocation list determined by filesystem state alone: one call per
supported stream not on the already-exists fast path. It does not depend
on any tool outcome. -/
def expectedToolCalls (req : Request) (cfg : Config) (env : Env) : List ToolCall :=
  ((textSubtitlesOf req.meta).filter
      (streamNeedsTool env cfg req.cid (sanitizeFilename (videoTitle req.meta))
        (yearSuffix req.meta))).map
    (streamCall cfg req.cid (sanitizeFilename (videoTitle req.meta)) (yearSuffix req.meta))

/-- Claim C8: a run that passes the short-circuit checks always ends with
status `completed`, whatever each stream's tool outcome was — in
particular when some streams succeed and others fail — and its invocation
list is exactly one call per supported stream needing extraction,
independent of every other stream's success or failure (no abort). -/
theorem process_partial_failure_completed (req : Request) (cfg : Config) (env : Env)
    (h1 : req.meta.get "fileType" = some "video")
    (h2 : ¬((jsTruthy (req.meta.get "extractedSubtitles")).isSome = true
        ∧ cfg.forceRecompute = false))
    (h4 : textSubtitlesOf req.meta ≠ []) :
    (processModel req cfg env).status = "completed"
    ∧ (processModel req cfg env).loop.toolCalls = expectedToolCalls req cfg env := by
  rw [processModel_completed req cfg env h1 h2 h4]
  refine ⟨rfl, ?_⟩
  show (processStreams env cfg req.cid (sanitizeFilename (videoTitle req.meta))
      (yearSuffix req.meta) (textSubtitlesOf req.meta) {}).toolCalls
    = expectedToolCalls req cfg env
  rw [processStreams_toolCalls]
  rfl

/-- Metadata of the claim C8 witness: a video with two text streams. -/
def metaTwoSubs : ExistingMeta where
  get := fun k =>
    if k = "fileType" then some "video"
    else if k = "subtitle_0_codec" then some "subrip"
    else if k = "subtitle_0_language" then some "eng"
    else if k = "subtitle_1_codec" then some "ass"
    else none
  parsedStreams := none

def reqTwoSubs : Request := { cid := "bvid", filePath := "/files/m.mkv", meta := metaTwoSubs }

/-- Environment of the claim C8 witness: stream 0's tool run succeeds with
a 100-byte output, stream 1's exits nonzero — a mixed outcome. -/
def envMixed : Env where
  outputDirExists := true
  outputExists := fun _ => false
  fileBytes := fun _ => []
  toolRun := fun i _ =>
    if i = 0 then { durationMs := 1000, exitCode := some 0, outExists := true, outSize := 100 }
    else { durationMs := 1000, exitCode := some 1, outExists := false, outSize := 0 }
  producedBytes := fun _ => []

theorem process_partial_failure_completed_witness :
    (processModel reqTwoSubs defaultCfg envMixed).status = "completed"
    ∧ (processModel reqTwoSubs defaultCfg envMixed).loop.toolCalls
        = expectedToolCalls reqTwoSubs defaultCfg envMixed :=
  process_partial_failure_completed reqTwoSubs defaultCfg envMixed
    (by decide) (by decide) (by decide)

/-- Claim C10: after the short-circuit checks, the metadata writes and the
locally collected CIDs decompose stream by stream; a stream on the
already-exists fast path (output present, `forceRecompute` off)
contributes its existing file's CID to the local arrays while issuing no
`metaCore.addToSet` write at all — such writes arise only from a fresh,
successful extraction. -/
theorem exists_path_no_metadata_write (req : Request) (cfg : Config) (env : Env)
    (h1 : req.meta.get "fileType" = some "video")
    (h2 : ¬((jsTruthy (req.meta.get "extractedSubtitles")).isSome = true
        ∧ cfg.forceRecompute = false))
    (h4 : textSubtitlesOf req.meta ≠ []) :
    ((processModel req cfg env).loop.addToSetCalls
        = (textSubtitlesOf req.meta).flatMap
            (streamAddToSets env cfg req.cid (sanitizeFilename (videoTitle req.meta))
              (yearSuffix req.meta))
      ∧ (processModel req cfg env).loop.extractedCids
        = (textSubtitlesOf req.meta).flatMap
            (streamCids env cfg req.cid (sanitizeFilename (videoTitle req.meta))
              (yearSuffix req.meta)))
    ∧ ∀ s : SubtitleStream,
        (env.outputExists (subOutputPath cfg req.cid (sanitizeFilename (videoTitle req.meta))
            (yearSuffix req.meta) s) && !cfg.forceRecompute) = true →
          streamAddToSets env cfg req.cid (sanitizeFilename (videoTitle req.meta))
              (yearSuffix req.meta) s = []
          ∧ streamCids env cfg req.cid (sanitizeFilename (videoTitle req.meta))
              (yearSuffix req.meta) s
            = [computeMidHash256Sync (env.fileBytes (subOutputPath cfg req.cid
                (sanitizeFilename (videoTitle req.meta)) (yearSuffix req.meta) s))] := by
  constructor
  · rw [processModel_completed req cfg env h1 h2 h4]
    constructor
    · show (processStreams env cfg req.cid (sanitizeFilename (videoTitle req.meta))
          (yearSuffix req.meta) (textSubtitlesOf req.meta) {}).addToSetCalls = _
      rw [processStreams_addToSets]
      rfl
    · show (processStreams env cfg req.cid (sanitizeFilename (videoTitle req.meta))
          (yearSuffix req.meta) (textSubtitlesOf req.meta) {}).extractedCids = _
      rw [processStreams_cids]
      rfl
  · intro s hcond
    constructor
    · unfold streamAddToSets
      rw [if_pos hcond]
    · unfold streamCids
      rw [if_pos hcond]

theorem exists_path_no_metadata_write_witness :
    ((processModel reqOneSub defaultCfg envAllExists).loop.addToSetCalls
        = (textSubtitlesOf reqOneSub.meta).flatMap
            (streamAddToSets envAllExists defaultCfg reqOneSub.cid
              (sanitizeFilename (videoTitle reqOneSub.meta)) (yearSuffix reqOneSub.meta))
      ∧ (processModel reqOneSub defaultCfg envAllExists).loop.extractedCids
        = (textSubtitlesOf reqOneSub.meta).flatMap
            (streamCids envAllExists defaultCfg reqOneSub.cid
              (sanitizeFilename (videoTitle reqOneSub.meta)) (yearSuffix reqOneSub.meta)))
    ∧ ∀ s : SubtitleStream,
        (envAllExists.outputExists (subOutputPath defaultCfg reqOneSub.cid
            (sanitizeFilename (videoTitle reqOneSub.meta)) (yearSuffix reqOneSub.meta) s)
          && !defaultCfg.forceRecompute) = true →
          streamAddToSets envAllExists defaultCfg reqOneSub.cid
              (sanitizeFilename (videoTitle reqOneSub.meta)) (yearSuffix reqOneSub.meta) s = []
          ∧ streamCids envAllExists defaultCfg reqOneSub.cid
              (sanitizeFilename (videoTitle reqOneSub.meta)) (yearSuffix reqOneSub.meta) s
            = [computeMidHash256Sync (envAllExists.fileBytes (subOutputPath defaultCfg
                reqOneSub.cid (sanitizeFilename (videoTitle reqOneSub.meta))
                (yearSuffix reqOneSub.meta) s))] :=
  exists_path_no_metadata_write reqOneSub defaultCfg envAllExists
    (by decide) (by decide) (by decide)

def toolRunSlow : ToolRun :=
  { durationMs := 120000, exitCode := some 0, outExists := true, outSize := 100 }

theorem extractSubtitle_timeout_kills_witness :
    ((extractSubtitleModel toolRunSlow).extracted = false
      ∧ (extractSubtitleModel toolRunSlow).killSignal = some "SIGKILL")
    ∧ ((processModel reqTwoSubs defaultCfg envMixed).status
          = (processModel reqTwoSubs defaultCfg envTimeout).status
        ∧ (processModel reqTwoSubs defaultCfg envMixed).loop.toolCalls
          = (processModel reqTwoSubs defaultCfg envTimeout).loop.toolCalls) :=
  ⟨(extractSubtitle_timeout_kills toolRunSlow (by decide)).1,
   (extractSubtitle_timeout_kills toolRunSlow (by decide)).2
     reqTwoSubs defaultCfg envMixed envTimeout rfl⟩

/-! ### Claim C2 -/

def metaUnknownCodec : ExistingMeta where
  get := fun k =>
    if k = "fileType" then some "video"
    else if k = "subtitle_0_codec" then some "foo"
    else none
  parsedStreams := none

def reqUnknownCodec : Request :=
  { cid := "bvid", filePath := "/files/u.mkv", meta := metaUnknownCodec }

/-- Claim C2 counterexample: codec `foo` is neither in the supported
allow-list (`CODEC_EXTENSION_MAP`) nor in the unsupported image-based
list, yet the run invokes the external tool for its stream: the source
filter only excludes the image-based set and never consults the
allow-list, so the claimed fail-safe skip does not happen. -/
theorem unknown_codec_reaches_tool :
    (CODEC_EXTENSION_MAP.lookup "foo" = none
      ∧ UNSUPPORTED_SUBTITLE_CODECS.contains "foo" = false)
    ∧ (processModel reqUnknownCodec defaultCfg envNoFiles).loop.toolCalls
        = [{ subtitleIndex := 0, outputCodec := "srt",
             outputPath := "/output/video[bvid]_subtitle.0.srt" }] := by
  decide

/-- Either a short-circuit leaves the invocation list empty, or it is the
per-stream expected list. -/
theorem processModel_toolCalls_cases (req : Request) (cfg : Config) (env : Env) :
    (processModel req cfg env).loop.toolCalls = []
    ∨ (processModel req cfg env).loop.toolCalls = expectedToolCalls req cfg env := by
  by_cases h1 : req.meta.get "fileType" ≠ some "video"
  · left
    unfold processModel
    rw [if_pos h1]
  · by_cases h2 : (jsTruthy (req.meta.get "extractedSubtitles")).isSome = true
        ∧ cfg.forceRecompute = false
    · left
      unfold processModel
      rw [if_neg h1, if_pos h2]
    · by_cases h3 : parseSubtitleStreams req.meta = []
      · left
        unfold processModel
        rw [if_neg h1, if_neg h2, if_pos h3]
      · by_cases h4 : textSubtitlesOf req.meta = []
        · left
          unfold processModel
          rw [if_neg h1, if_neg h2, if_neg h3, if_pos h4]
        · right
          rw [processModel_completed req cfg env (not_not.mp h1) h2 h4]
          show (processStreams env cfg req.cid (sanitizeFilename (videoTitle req.meta))
              (yearSuffix req.meta) (textSubtitlesOf req.meta) {}).toolCalls = _
          rw [processStreams_toolCalls]
          rfl

/-- Claim C2 (amended): classification excludes exactly the image-based
codec list — a parsed stream is retained iff its codec is not in
`UNSUPPORTED_SUBTITLE_CODECS`, so codecs in neither list are retained
rather than skipped — and every recorded tool invocation belongs to a
retained stream. -/
theorem unsupported_filter_only (m : ExistingMeta) (s : SubtitleStream)
    (hs : s ∈ parseSubtitleStreams m) :
    (s ∈ textSubtitlesOf m ↔ UNSUPPORTED_SUBTITLE_CODECS.contains s.codec = false)
    ∧ ∀ (req : Request) (cfg : Config) (env : Env),
        ∀ c ∈ (processModel req cfg env).loop.toolCalls,
          ∃ s' ∈ textSubtitlesOf req.meta,
            UNSUPPORTED_SUBTITLE_CODECS.contains s'.codec = false
            ∧ c = streamCall cfg req.cid (sanitizeFilename (videoTitle req.meta))
                (yearSuffix req.meta) s' := by
  constructor
  · unfold textSubtitlesOf
    rw [List.mem_filter]
    constructor
    · intro h
      simpa using h.2
    · intro h
      exact ⟨hs, by simpa using h⟩
  · intro req cfg env c hc
    rcases processModel_toolCalls_cases req cfg env with hnil | hchar
    · rw [hnil] at hc
      cases hc
    · rw [hchar] at hc
      unfold expectedToolCalls at hc
      rw [List.mem_map] at hc
      obtain ⟨s', hs', hcall⟩ := hc
      rw [List.mem_filter] at hs'
      have hmem := hs'.1
      have hcontains : UNSUPPORTED_SUBTITLE_CODECS.contains s'.codec = false := by
        unfold textSubtitlesOf at hmem
        rw [List.mem_filter] at hmem
        simpa using hmem.2
      exact ⟨s', hmem, hcontains, hcall.symm⟩

theorem unsupported_filter_only_witness :
    (({ index := 0, codec := "foo", language := none, title := none } : SubtitleStream)
        ∈ textSubtitlesOf metaUnknownCodec
      ↔ UNSUPPORTED_SUBTITLE_CODECS.contains "foo" = false)
    ∧ ∃ s' ∈ textSubtitlesOf reqUnknownCodec.meta,
        UNSUPPORTED_SUBTITLE_CODECS.contains s'.codec = false
        ∧ ({ subtitleIndex := 0, outputCodec := "srt",
             outputPath := "/output/video[bvid]_subtitle.0.srt" } : ToolCall)
          = streamCall defaultCfg reqUnknownCodec.cid
              (sanitizeFilename (videoTitle reqUnknownCodec.meta))
              (yearSuffix reqUnknownCodec.meta) s' :=
  ⟨(unsupported_filter_only metaUnknownCodec
      { index := 0, codec := "foo", language := none, title := none } (by decide)).1,
   (unsupported_filter_only metaUnknownCodec
      { index := 0, codec := "foo", language := none, title := none } (by decide)).2
     reqUnknownCodec defaultCfg envNoFiles _ (by decide)⟩

/-! ### Claim C9 -/

def metaGapFields : ExistingMeta where
  get := fun k => if k = "subtitle_1_codec" then some "subrip" else none
  parsedStreams := none

/-- Claim C9 counterexample: with only `subtitle_1_codec` present, the
fallback parser returns a single stream whose index is 1 — the 0th
returned stream does not carry index 0, so the output is not re-indexed
contiguously from 0 on the fallback path. -/
theorem fallback_keeps_field_index :
    (parseSubtitleStreams metaGapFields).map SubtitleStream.index = [1]
    ∧ (parseSubtitleStreams metaGapFields).map SubtitleStream.index ≠ [0] := by
  decide

/-- Claim C9 (amended): under the structured JSON list the retained
subtitle entries are re-indexed contiguously from 0 in encounter order
(the k-th retained stream has index k); under the individually-keyed
fallback the scanner visits field indices 0 through 19 in order and each
returned stream keeps the field index it was found under — possibly
neither contiguous nor starting at 0. -/
theorem classifier_index_assignment :
    (∀ raws : List RawStream,
      (jsonSubtitleStreams raws 0).map SubtitleStream.index
        = List.range (jsonSubtitleStreams raws 0).length)
    ∧ (∀ m : ExistingMeta,
        scanSubtitleFields m 20 0 = (List.range' 0 20).filterMap (fallbackStreamAt m))
    ∧ (∀ (m : ExistingMeta) (s : SubtitleStream), s ∈ scanSubtitleFields m 20 0 →
        jsTruthy (m.get (subtitleFieldKey s.index "codec")) = some s.codec) := by
  refine ⟨?_, ?_, ?_⟩
  · intro raws
    rw [jsonSubtitleStreams_indexes raws 0, List.range_eq_range']
  · intro m
    exact scanSubtitleFields_eq_filterMap m 20 0
  · intro m s hs
    exact scanSubtitleFields_index_found m 20 0 s hs

theorem classifier_index_assignment_witness :
    scanSubtitleFields metaGapFields 20 0
      = (List.range' 0 20).filterMap (fallbackStreamAt metaGapFields)
    ∧ jsTruthy (metaGapFields.get (subtitleFieldKey
        ({ index := 1, codec := "subrip", language := none, title := none }
          : SubtitleStream).index "codec"))
      = some ({ index := 1, codec := "subrip", language := none, title := none }
          : SubtitleStream).codec :=
  ⟨classifier_index_assignment.2.1 metaGapFields,
   classifier_index_assignment.2.2 metaGapFields
     { index := 1, codec := "subrip", language := none, title := none } (by decide)⟩

/-! ### Claim C4 supporting lemmas

The first two conjuncts of claim C4 — the identifier is a function of the
(length, sample-window) pair, and bytes strictly outside the centered
window never influence it — are provable and proved below. Its final
conjunct (changing any byte inside the window always changes the
identifier) is exactly collision-freeness of SHA-256 on the two digest
inputs and can be neither proved nor refuted here. -/

theorem codeSample_eq_specSample (f : List Nat) :
    (if f.length ≤ SAMPLE_SIZE then f
     else (f.drop ((f.length - SAMPLE_SIZE) / 2)).take SAMPLE_SIZE) = specSample f := by
  have hS : SAMPLE_SIZE = 1048576 := by norm_num [SAMPLE_SIZE]
  rw [hS, specSample]

/-- The identifier is a function of exactly the (length, sample) pair. -/
theorem computeMidHash256Sync_factors (f g : List Nat)
    (hlen : f.length = g.length) (hsample : specSample f = specSample g) :
    computeMidHash256Sync f = computeMidHash256Sync g := by
  show base32Encode ([0x01] ++ MIDHASH_VARINT ++ MIDHASH_VARINT ++ [0x20]
      ++ sha256 (writeBigUInt64BE f.length ++
        (if f.length ≤ SAMPLE_SIZE then f
         else (f.drop ((f.length - SAMPLE_SIZE) / 2)).take SAMPLE_SIZE)))
    = base32Encode ([0x01] ++ MIDHASH_VARINT ++ MIDHASH_VARINT ++ [0x20]
      ++ sha256 (writeBigUInt64BE g.length ++
        (if g.length ≤ SAMPLE_SIZE then g
         else (g.drop ((g.length - SAMPLE_SIZE) / 2)).take SAMPLE_SIZE)))
  rw [codeSample_eq_specSample, codeSample_eq_specSample, hlen, hsample]

/-- Bytes strictly outside the centered 1 MiB window do not influence the
identifier of a large file. -/
theorem cid_ignores_outside_window (f g : List Nat)
    (hlen : f.length = g.length) (hbig : 1048576 < f.length)
    (hwin : (f.drop ((f.length - 1048576) / 2)).take 1048576
      = (g.drop ((g.length - 1048576) / 2)).take 1048576) :
    computeMidHash256Sync f = computeMidHash256Sync g := by
  apply computeMidHash256Sync_factors f g hlen
  unfold specSample
  rw [if_neg (by omega), if_neg (by omega)]
  exact hwin
